import Mathlib

/-!
# Verification of the tinywasm/client mode-switching compilation state machine

Shallow embedding of the WebAssembly build-mode orchestrator from the
`github.com/tinywasm/client` repository.  The embedding follows the current
generation of the source (`Change.go`, the `Database`-backed `WasmClient`
aggregate, `builderInit.go`, `storage.go`, `file_event.go`) for the
mode-change orchestrator, and `javascripts.go` (the `TinyWasm` receiver
generation) for the runtime-shim generator and cold-start content detection.

External collaborators are embedded as explicit data:
* the key-value persistence collaborator (`Store` interface, `Get`/`Set`)
  becomes an association list;
* the builder set becomes an enumeration of the three configured builders;
* the outcome of spawning the toolchain (success of `storage.Compile()`,
  presence of the `tinygo` executable probed by `VerifyTinyGoInstallation`)
  becomes an `Env` record of external-world facts supplied per call;
* calls into external capabilities (builder `Cancel`, compilation, store
  reads/writes, listener notification) are recorded as an event trace so
  that temporal statements ("the probe runs", "no Builder operation is
  invoked") are statable.
-/

namespace TinywasmClient

/-! ## External collaborators -/

/-- The key-value persistence collaborator (`Store` interface: `Get`, `Set`).
Both in-repo implementations (`testDatabase`, `MockStore`) are maps that
never return an error and answer `""` for a missing key; the embedding uses
an association list with the same semantics (latest `Set` wins). -/
def Store : Type := List (String × String)

/-- Embeds `Get`: first binding wins (the embedding prepends on `Set`), missing
keys answer the empty string, mirroring the map-backed implementations. -/
def storeGet (db : Store) (key : String) : String :=
  match db.find? (fun p => p.1 = key) with
  | some p => p.2
  | none => ""

/-- Embeds `Set`: record the new binding; `storeGet` sees the latest one. -/
def storeSet (db : Store) (key value : String) : Store :=
  (key, value) :: db

/-- The three pre-configured builders of `builderWasmInit`
(`builderSizeLarge` / `builderSizeMedium` / `builderSizeSmall`).  The
`activeSizeBuilder` pointer always refers to one of them, so it is embedded
as this enumeration. -/
inductive BuilderId where
  | large
  | medium
  | small
deriving DecidableEq, Repr

/-- The two `BuildStorage` implementations of `storage.go`
(`memoryStorage` / `diskStorage`). -/
inductive StorageKind where
  | memory
  | disk
deriving DecidableEq, Repr

/-- Embeds `Name()` of the two storage implementations (`storage.go`). -/
def storageName : StorageKind → String
  | .memory => "In-Memory"
  | .disk => "External"

/-- External-world facts consumed by one orchestrator call: whether the
`tinygo` executable is found on the PATH (the result of
`VerifyTinyGoInstallation() == nil`), and the outcome of the toolchain
process run by `storage.Compile()` (`none` = success, `some e` = the
compilation error message). -/
structure Env where
  tinyGoPresent : Bool
  compileError : Option String

/-- Calls into external capabilities, recorded in order of occurrence. -/
inductive Event where
  /-- Embeds `VerifyTinyGoInstallation` probe for the tinygo executable. -/
  | probe
  /-- Embeds `Cancel()` on the previously active builder (`updateCurrentBuilder`). -/
  | cancel
  /-- a builder compilation started via `storage.Compile()`. -/
  | compile
  /-- Embeds `Database.Set(key, value)`. -/
  | dbSet (key value : String)
  /-- Embeds `Database.Get(key)`. -/
  | dbGet (key : String)
  /-- Embeds `wasmProjectWriteOrReplaceWasmExecJsOutput` invoked. -/
  | wasmExecWrite
  /-- the `OnWasmExecChange` listener notified. -/
  | notify
deriving DecidableEq, Repr

/-- The human-readable messages a `Change` call hands to `w.Logger`,
classified the way §7 of the specification classifies them. -/
inductive Msg where
  /-- Embeds `validateMode` failure: the echoed token and the valid set. -/
  | invalidMode (token : String) (validSet : List String)
  /-- Embeds `handleTinyGoMissing` error. -/
  | tinyGoMissing
  /-- The message "Error: auto compilation failed: <err>". -/
  | compileFailed (err : String)
  /-- Embeds `logSuccessState("Changed", "To", "Mode", newValue)`. -/
  | success (mode : String)
deriving DecidableEq, Repr

/-! ## The aggregate (`WasmClient`, current generation) -/

/-- Embeds `StoreKeySizeMode`: the fixed persistence key. -/
def StoreKeySizeMode : String := "wasmsize_mode"

/-- The `WasmClient` aggregate, restricted to the fields the verified
operations read or write.  `activeSizeBuilder` is never nil after
`builderWasmInit`, hence a plain `BuilderId`; `database` and `storage`
keep their nilability (`Option`). -/
structure WasmClient where
  currenSizeMode : String
  buildLargeSizeShortcut : String
  buildMediumSizeShortcut : String
  buildSmallSizeShortcut : String
  tinyGoInstalled : Bool
  activeSizeBuilder : BuilderId
  database : Option Store
  storage : Option StorageKind
  enableWasmExecJsOutput : Bool
  hasOnWasmExecChange : Bool

/-! ## Token normalization

Modelled from the spec: `Convert(newValue).ToUpper().String()` comes from the
external `github.com/tinywasm/fmt` module, which is not part of this
repository.  Per the source comment ("Normalize input: trim spaces and
convert to uppercase") and spec §4.1 ("normalizes the input token (trim,
uppercase)") it trims surrounding whitespace and uppercases ASCII letters. -/

/-- Whitespace recognised by the trim step. -/
def isWsChar (c : Char) : Bool := c = ' ' || c = '\t' || c = '\n' || c = '\r'

/-- Trim leading and trailing whitespace (character-list form). -/
def trimChars (l : List Char) : List Char :=
  ((l.dropWhile isWsChar).reverse.dropWhile isWsChar).reverse

/-- Modelled from the spec: `Convert(s).ToUpper().String()` of the external
`tinywasm/fmt` module — trim surrounding whitespace, uppercase ASCII. -/
def normalizeToken (s : String) : String :=
  String.mk ((trimChars s.data).map Char.toUpper)

/-! ## Mode registry (`Change.go`) -/

/-- The uppercased valid-mode set built inside `validateMode`. -/
def validModes (w : WasmClient) : List String :=
  [normalizeToken w.buildLargeSizeShortcut,
   normalizeToken w.buildMediumSizeShortcut,
   normalizeToken w.buildSmallSizeShortcut]

/-- Embeds `validateMode` (`Change.go`): uppercase the token again, then check
membership in the three uppercased configured shortcuts; on mismatch
produce the "invalid mode, valid set is …" error. -/
def validateMode (w : WasmClient) (mode : String) : Option Msg :=
  let m := normalizeToken mode
  if m ∈ validModes w then none
  else some (Msg.invalidMode m (validModes w))

/-- Embeds `requiresTinyGo` (`part_009`): raw (not case-normalized) comparison with
the medium and small shortcuts. -/
def requiresTinyGo (w : WasmClient) (mode : String) : Bool :=
  mode = w.buildMediumSizeShortcut || mode = w.buildSmallSizeShortcut

/-- The `switch mode` of `updateCurrentBuilder` (`builderInit.go`): raw
string comparison, first arm wins, unknown tokens fall back to the
large/coding builder. -/
def selectBuilder (w : WasmClient) (mode : String) : BuilderId :=
  if mode = w.buildLargeSizeShortcut then .large
  else if mode = w.buildMediumSizeShortcut then .medium
  else if mode = w.buildSmallSizeShortcut then .small
  else .large

/-- Embeds `updateCurrentBuilder` (`builderInit.go`): cancel the in-flight compile
of the previously active builder, record the mode string, point the active
builder at the selected instance. -/
def updateCurrentBuilderEv (w : WasmClient) (mode : String) :
    WasmClient × List Event :=
  ({ w with currenSizeMode := mode, activeSizeBuilder := selectBuilder w mode },
   [Event.cancel])

/-- Embeds `RecompileMainWasm` (`Change.go`) routed through `storage.Compile()`:
a nil storage is the "storage not initialized" error and no builder is
invoked; otherwise the builder runs and the outcome is the environment's
compile result. -/
def recompileMainWasm (env : Env) (storage : Option StorageKind) :
    Option String × List Event :=
  match storage with
  | none => (some "storage not initialized", [])
  | some _ => (env.compileError, [Event.compile])

/-- The tail of `Change` after validation and the TinyGo gate: switch the
active builder, persist the mode when a database is configured, recompile,
regenerate `wasm_exec.js` when enabled, notify the listener, and log the
success message only when compilation succeeded. -/
def changeTail (env : Env) (w : WasmClient) (nv : String) :
    WasmClient × List Msg × List Event :=
  let p1 := updateCurrentBuilderEv w nv
  let w1 := p1.1
  let p2 : WasmClient × List Event :=
    match w1.database with
    | some db =>
        ({ w1 with database := some (storeSet db StoreKeySizeMode nv) },
         [Event.dbSet StoreKeySizeMode nv])
    | none => (w1, [])
  let w2 := p2.1
  let pc := recompileMainWasm env w2.storage
  let failMsgs : List Msg :=
    match pc.1 with
    | some e => [Msg.compileFailed e]
    | none => []
  let evWasmExec : List Event :=
    if w2.enableWasmExecJsOutput then [Event.wasmExecWrite] else []
  let evNotify : List Event :=
    if w2.hasOnWasmExecChange then [Event.notify] else []
  let successMsgs : List Msg :=
    match pc.1 with
    | some _ => []
    | none => [Msg.success nv]
  (w2, failMsgs ++ successMsgs, p1.2 ++ p2.2 ++ pc.2 ++ evWasmExec ++ evNotify)

/-- Embeds `Change` (`Change.go`): normalize, validate, gate TinyGo modes on the
(freshly probed) installation status, then run the transaction tail.
Returns the post-state, the logged messages, and the external-call trace. -/
def Change (env : Env) (w : WasmClient) (newValue : String) :
    WasmClient × List Msg × List Event :=
  let nv := normalizeToken newValue
  match validateMode w nv with
  | some err => (w, [err], [])
  | none =>
      if requiresTinyGo w nv then
        -- verifyTinyGoInstallationStatus: probe and cache the boolean
        let w' := { w with tinyGoInstalled := env.tinyGoPresent }
        if w'.tinyGoInstalled = true then
          let t := changeTail env w' nv
          (t.1, t.2.1, Event.probe :: t.2.2)
        else
          (w', [Msg.tinyGoMissing], [Event.probe])
      else
        changeTail env w nv

/-! ## `loadMode` / `Value` / `New` (current-generation `WasmClient`) -/

/-- Embeds `loadMode`: when a database is configured, `Get` the persisted mode and,
when it is non-empty and differs from the tracked mode, adopt it and sync
the active builder through `updateCurrentBuilder`. -/
def loadModeEv (w : WasmClient) : WasmClient × List Event :=
  match w.database with
  | none => (w, [])
  | some db =>
      let val := storeGet db StoreKeySizeMode
      if val ≠ "" ∧ w.currenSizeMode ≠ val then
        let p := updateCurrentBuilderEv w val
        (p.1, Event.dbGet StoreKeySizeMode :: p.2)
      else
        (w, [Event.dbGet StoreKeySizeMode])

/-- Embeds `Value()`: sync with the store via `loadMode`, then report the tracked
mode, defaulting to the large shortcut when none was ever set. -/
def ValueEv (w : WasmClient) : String × WasmClient × List Event :=
  let p := loadModeEv w
  let v :=
    if p.1.currenSizeMode = "" then p.1.buildLargeSizeShortcut
    else p.1.currenSizeMode
  (v, p.1, p.2)

/-- Embeds `New` (current generation): field defaults (`"L"`/`"M"`/`"S"`, mode
`"L"`), `builderWasmInit` (active builder = large), one `loadMode`, then
unconditionally the In-Memory storage.  `outputFileExistsOnDisk` is the
filesystem fact the specification's §4.3 selection rule speaks about; the
current constructor never consults it. -/
def NewEv (db : Option Store) (outputFileExistsOnDisk : Bool) :
    WasmClient × List Event :=
  let _ := outputFileExistsOnDisk
  let w0 : WasmClient :=
    { currenSizeMode := "L"
      buildLargeSizeShortcut := "L"
      buildMediumSizeShortcut := "M"
      buildSmallSizeShortcut := "S"
      tinyGoInstalled := false
      activeSizeBuilder := .large
      database := db
      storage := none
      enableWasmExecJsOutput := false
      hasOnWasmExecChange := false }
  let p := loadModeEv w0
  ({ p.1 with storage := some .memory }, p.2)

/-! ## Runtime shim generator and cold-start detection (`javascripts.go`)

The generator in `javascripts.go` is written against the `TinyWasm`
receiver generation of the aggregate; the fields it touches are embedded
below.  The two embedded shim blobs (`assets/wasm_exec_go.js`,
`assets/wasm_exec_tinygo.js`) are opaque resources not present in the
repository, so the generator is parametrized by their contents. -/

/-- The `TinyWasm` fields read or written by `JavascriptForInitializing`,
`ClearJavaScriptCache` and `analyzeWasmExecJsContent`.  `activeBuilder`
carries `MainOutputFileNameWithExtension()` of the active builder when the
builder pointer is non-nil. -/
structure TinyWasm where
  currentMode : String
  buildLargeSizeShortcut : String
  buildMediumSizeShortcut : String
  buildSmallSizeShortcut : String
  wasmProject : Bool
  tinyGoCompiler : Bool
  activeBuilder : Option String
  store : Option Store
  mode_large_go_wasm_exec_cache : String
  mode_medium_tinygo_wasm_exec_cache : String
  mode_small_tinygo_wasm_exec_cache : String

/-- Embeds `wasm_execGoSignatures` (`javascripts.go`). -/
def wasm_execGoSignatures : List String :=
  ["runtime.scheduleTimeoutEvent",
   "runtime.clearTimeoutEvent",
   "runtime.wasmExit"]

/-- Embeds `wasm_execTinyGoSignatures` (`javascripts.go`). -/
def wasm_execTinyGoSignatures : List String :=
  ["runtime.sleepTicks",
   "runtime.ticks",
   "$runtime.alloc",
   "tinygo_js"]

/-- One position of the brute-force substring scan: do the `sub.length`
characters of `s` starting at `i` spell `sub`? -/
def matchAt (s sub : List Char) (i : Nat) : Bool :=
  (s.drop i).take sub.length = sub

/-- The repository's own substring routine (`contains` in `part_009`,
embedding the `Contains` helper of the external `tinywasm/fmt` module used
by `analyzeWasmExecJsContent`): empty needles always match, longer needles
never do, otherwise scan the start positions `0 … len s − len sub`. -/
def containsSub (s sub : List Char) : Bool :=
  if sub.length = 0 then true
  else if sub.length > s.length then false
  else (List.range (s.length - sub.length + 1)).any (matchAt s sub)

/-- String-level wrapper of `containsSub`. -/
def scontains (s sub : String) : Bool :=
  containsSub s.data sub.data

/-- The signature-occurrence counter loops of `analyzeWasmExecJsContent`. -/
def countSigs (content : String) (sigs : List String) : Nat :=
  sigs.countP (fun s => scontains content s)

/-- The "PRIORITY 1" step of `analyzeWasmExecJsContent`: restore a
non-empty persisted mode from the store when one is configured. -/
def restoreModeFromStore (w : TinyWasm) : TinyWasm :=
  match w.store with
  | some db =>
      let mode := storeGet db "tinywasm_mode"
      if mode ≠ "" then { w with currentMode := mode } else w
  | none => w

/-- Embeds `analyzeWasmExecJsContent` (`javascripts.go`), with the file contents
passed in place of the file path.  Restores a non-empty persisted mode
first, then counts both signature lists and branches exactly as the
source does; answers whether detection succeeded and the updated state. -/
def analyzeWasmExecJsContent (w : TinyWasm) (content : String) :
    Bool × TinyWasm :=
  let w := restoreModeFromStore w
  let goCount := countSigs content wasm_execGoSignatures
  let tinyCount := countSigs content wasm_execTinyGoSignatures
  if tinyCount > goCount ∧ tinyCount > 0 then
    (true, { w with tinyGoCompiler := true, wasmProject := true })
  else if goCount > tinyCount ∧ goCount > 0 then
    (true, { w with tinyGoCompiler := false, wasmProject := true })
  else if tinyCount > 0 ∨ goCount > 0 then
    (true, { w with tinyGoCompiler := decide (tinyCount > 0), wasmProject := true })
  else
    (false, w)

/-! ### `normalizeJs` (`javascripts.go`)

`strings.ReplaceAll(s, "\r\n", "\n")`, `strings.ReplaceAll(s, "\r", "\n")`,
`strings.Split(s, "\n")`, `strings.TrimRight(line, " \t")` and
`strings.Join(lines, "\n")` are implemented on character lists with the Go
semantics (left-to-right non-overlapping replacement; `Split` yields one
piece more than the number of separators). -/

/-- Embeds `strings.ReplaceAll(s, "\r\n", "\n")`. -/
def replaceCRLF : List Char → List Char
  | [] => []
  | '\r' :: '\n' :: rest => '\n' :: replaceCRLF rest
  | c :: rest => c :: replaceCRLF rest

/-- Embeds `strings.ReplaceAll(s, "\r", "\n")`. -/
def replaceCR (l : List Char) : List Char :=
  l.map (fun c => if c = '\r' then '\n' else c)

/-- Embeds `strings.Split(s, "\n")`. -/
def splitOnNl : List Char → List (List Char)
  | [] => [[]]
  | c :: rest =>
      if c = '\n' then [] :: splitOnNl rest
      else
        match splitOnNl rest with
        | [] => [[c]]
        | l :: ls => (c :: l) :: ls

/-- Embeds `strings.TrimRight(line, " \t")`. -/
def trimRightWs (l : List Char) : List Char :=
  (l.reverse.dropWhile (fun c => c = ' ' || c = '\t')).reverse

/-- Embeds `strings.Join(lines, "\n")`. -/
def joinNl : List (List Char) → List Char
  | [] => []
  | [l] => l
  | l :: ls => l ++ '\n' :: joinNl ls

/-- Embeds `normalizeJs` (`javascripts.go`): CRLF→LF, stray CR→LF, then trim the
trailing spaces/tabs of every line. -/
def normalizeJs (s : String) : String :=
  String.mk (joinNl ((splitOnNl (replaceCR (replaceCRLF s.data))).map trimRightWs))

/-- The default footer of `JavascriptForInitializing`: the bootstrap
snippet fetching the compiled binary by its output filename. -/
def defaultFooter (outName : String) : String :=
  "\n\t\tconst go = new Go();\n\t\tWebAssembly.instantiateStreaming(fetch(\""
    ++ outName
    ++ "\"), go.importObject).then((result) => \x7b\n\t\t\tgo.run(result.instance);\n\t\t\x7d);\n\t"

/-- The `Value()` read used by the generator: the tracked mode, defaulting
to the large shortcut when empty. -/
def tvValue (h : TinyWasm) : String :=
  if h.currentMode = "" then h.buildLargeSizeShortcut else h.currentMode

/-- The per-mode cache refresh at the end of `JavascriptForInitializing`:
the slot of the resolved mode (first matching shortcut wins), with the
compiler-flag fallback for unrecognized modes. -/
def jsStoreCache (h : TinyWasm) (mode normalized : String) : TinyWasm :=
  if mode = h.buildLargeSizeShortcut then
    { h with mode_large_go_wasm_exec_cache := normalized }
  else if mode = h.buildMediumSizeShortcut then
    { h with mode_medium_tinygo_wasm_exec_cache := normalized }
  else if mode = h.buildSmallSizeShortcut then
    { h with mode_small_tinygo_wasm_exec_cache := normalized }
  else if h.tinyGoCompiler then
    { h with mode_medium_tinygo_wasm_exec_cache := normalized }
  else
    { h with mode_large_go_wasm_exec_cache := normalized }

/-- Embeds `JavascriptForInitializing` (`javascripts.go`), parametrized by the two
embedded shim blobs: resolve the mode, short-circuit non-WASM projects to
an empty success, pick the blob by `requiresTinyGo`, compose
header + blob + footer, fail when the active builder is nil, normalize,
refresh the per-mode cache, and return the normalized text. -/
def JavascriptForInitializing (goBlob tinyBlob : String) (h : TinyWasm)
    (customizations : List String) : Except String String × TinyWasm :=
  let mode := tvValue h
  if h.wasmProject = false then (Except.ok "", h)
  else
    let useTinyGo :=
      mode = h.buildMediumSizeShortcut || mode = h.buildSmallSizeShortcut
    let wasmJs := if useTinyGo then tinyBlob else goBlob
    let header :=
      match customizations with
      | c :: _ => c
      | [] => ""
    match h.activeBuilder with
    | none => (Except.error "activeBuilder not initialized", h)
    | some outName =>
        let footer :=
          match customizations with
          | _ :: f :: _ => f
          | _ => defaultFooter outName
        let normalized := normalizeJs (header ++ wasmJs ++ footer)
        (Except.ok normalized, jsStoreCache h mode normalized)

/-- Embeds `ClearJavaScriptCache` (`javascripts.go`): empty all three slots. -/
def ClearJavaScriptCache (h : TinyWasm) : TinyWasm :=
  { h with
    mode_large_go_wasm_exec_cache := ""
    mode_medium_tinygo_wasm_exec_cache := ""
    mode_small_tinygo_wasm_exec_cache := "" }

/-! ## Shared concrete fixtures and helper lemmas -/

/-- The state `New(cfg)` produces with no database and no pre-existing
output file: default shortcuts, mode `"L"`, large builder, In-Memory
storage. -/
def defaultClient : WasmClient :=
  { currenSizeMode := "L"
    buildLargeSizeShortcut := "L"
    buildMediumSizeShortcut := "M"
    buildSmallSizeShortcut := "S"
    tinyGoInstalled := false
    activeSizeBuilder := .large
    database := none
    storage := some .memory
    enableWasmExecJsOutput := false
    hasOnWasmExecChange := false }

/-- Environment with the tinygo executable present and a succeeding
compiler. -/
def envOk : Env := { tinyGoPresent := true, compileError := none }

theorem changeTail_state (env : Env) (w : WasmClient) (nv : String) :
    (changeTail env w nv).1.currenSizeMode = nv ∧
    (changeTail env w nv).1.activeSizeBuilder = selectBuilder w nv ∧
    (changeTail env w nv).1.storage = w.storage ∧
    (changeTail env w nv).1.buildLargeSizeShortcut = w.buildLargeSizeShortcut ∧
    (changeTail env w nv).1.buildMediumSizeShortcut = w.buildMediumSizeShortcut ∧
    (changeTail env w nv).1.buildSmallSizeShortcut = w.buildSmallSizeShortcut := by
  unfold changeTail updateCurrentBuilderEv
  cases w.database <;> simp

theorem changeTail_database_none (env : Env) (w : WasmClient) (nv : String)
    (h : w.database = none) : (changeTail env w nv).1.database = none := by
  unfold changeTail updateCurrentBuilderEv
  simp [h]

theorem changeTail_database_some (env : Env) (w : WasmClient) (nv : String)
    (db : Store) (h : w.database = some db) :
    (changeTail env w nv).1.database = some (storeSet db StoreKeySizeMode nv) := by
  unfold changeTail updateCurrentBuilderEv
  simp [h]

theorem changeTail_msgs (env : Env) (w : WasmClient) (nv : String) :
    (changeTail env w nv).2.1 =
      match (recompileMainWasm env w.storage).1 with
      | some e => [Msg.compileFailed e]
      | none => [Msg.success nv] := by
  unfold changeTail updateCurrentBuilderEv
  cases w.database <;> cases h : (recompileMainWasm env w.storage).1 <;> simp_all

theorem changeTail_no_probe (env : Env) (w : WasmClient) (nv : String) :
    Event.probe ∉ (changeTail env w nv).2.2 := by
  unfold changeTail updateCurrentBuilderEv recompileMainWasm
  cases w.database <;> cases w.storage <;>
    cases w.enableWasmExecJsOutput <;> cases w.hasOnWasmExecChange <;> simp

/-! ## C6 — invalid-mode rejection -/

/-- C6: for every token that does not normalize into the (uppercased)
configured shortcut set, `Change` reports the invalid-mode error listing
the configured shortcuts, returns the state entirely unchanged, and
performs no external call (in particular no Builder operation). -/
theorem C6_invalid_mode_rejected (env : Env) (w : WasmClient) (tok : String)
    (hinv : normalizeToken (normalizeToken tok) ∉ validModes w) :
    Change env w tok =
      (w, [Msg.invalidMode (normalizeToken (normalizeToken tok)) (validModes w)], []) := by
  unfold Change validateMode
  simp [hinv]

/-- C6 witness at the default configuration and the token `"not-a-mode"`. -/
theorem C6_invalid_mode_rejected_witness :
    normalizeToken (normalizeToken "not-a-mode") ∉ validModes defaultClient ∧
    Change envOk defaultClient "not-a-mode" =
      (defaultClient,
       [Msg.invalidMode (normalizeToken (normalizeToken "not-a-mode"))
          (validModes defaultClient)], []) :=
  ⟨by decide, C6_invalid_mode_rejected envOk defaultClient "not-a-mode" (by decide)⟩

/-! ## C7 — TinyGo-absent short circuit -/

/-- C7: when the requested (normalized) token is one requiring the TinyGo
toolchain and the toolchain is absent, `Change` emits only the
toolchain-missing error; the tracked mode, the active builder, the
persisted store and the storage keep their pre-call values, and no builder
operation (cancel or compile) and no store write happen. -/
theorem C7_tinygo_missing_short_circuit (env : Env) (w : WasmClient) (tok : String)
    (hval : validateMode w (normalizeToken tok) = none)
    (hreq : requiresTinyGo w (normalizeToken tok) = true)
    (habs : env.tinyGoPresent = false) :
    (Change env w tok).1.currenSizeMode = w.currenSizeMode ∧
    (Change env w tok).1.activeSizeBuilder = w.activeSizeBuilder ∧
    (Change env w tok).1.database = w.database ∧
    (Change env w tok).1.storage = w.storage ∧
    (Change env w tok).2.1 = [Msg.tinyGoMissing] ∧
    (Change env w tok).2.2 = [Event.probe] := by
  unfold Change
  simp [hval, hreq, habs]

/-- C7 witness: default configuration, token `"S"`, tinygo absent. -/
theorem C7_tinygo_missing_short_circuit_witness :
    validateMode defaultClient (normalizeToken "S") = none ∧
    requiresTinyGo defaultClient (normalizeToken "S") = true ∧
    ((Change ⟨false, none⟩ defaultClient "S").1.currenSizeMode =
        defaultClient.currenSizeMode ∧
     (Change ⟨false, none⟩ defaultClient "S").1.activeSizeBuilder =
        defaultClient.activeSizeBuilder ∧
     (Change ⟨false, none⟩ defaultClient "S").1.database = defaultClient.database ∧
     (Change ⟨false, none⟩ defaultClient "S").1.storage = defaultClient.storage ∧
     (Change ⟨false, none⟩ defaultClient "S").2.1 = [Msg.tinyGoMissing] ∧
     (Change ⟨false, none⟩ defaultClient "S").2.2 = [Event.probe]) :=
  ⟨by decide, by decide,
   C7_tinygo_missing_short_circuit ⟨false, none⟩ defaultClient "S"
     (by decide) (by decide) rfl⟩

/-! ## C1 — compile failure does not roll the mode switch back -/

/-- C1: for a valid token whose toolchain requirement is satisfied, when
the recompilation step fails, the call ends with the tracked mode equal to
the normalized requested token and the active builder equal to the builder
that token selects (the switch is not rolled back), and the message list
is exactly the compilation-failure message — no success message. -/
theorem C1_mode_switch_survives_compile_failure (env : Env) (w : WasmClient)
    (tok e : String)
    (hval : validateMode w (normalizeToken tok) = none)
    (htg : requiresTinyGo w (normalizeToken tok) = true → env.tinyGoPresent = true)
    (hfail : (recompileMainWasm env w.storage).1 = some e) :
    (Change env w tok).1.currenSizeMode = normalizeToken tok ∧
    (Change env w tok).1.activeSizeBuilder = selectBuilder w (normalizeToken tok) ∧
    (Change env w tok).2.1 = [Msg.compileFailed e] := by
  simp only [Change, hval]
  by_cases hr : requiresTinyGo w (normalizeToken tok) = true
  · have hp := htg hr
    have hst := changeTail_state env { w with tinyGoInstalled := true }
      (normalizeToken tok)
    have hms := changeTail_msgs env { w with tinyGoInstalled := true }
      (normalizeToken tok)
    have hf2 : (recompileMainWasm env
        ({ w with tinyGoInstalled := true } : WasmClient).storage).1 = some e := hfail
    rw [hf2] at hms
    simp only [hr, hp, if_true]
    exact ⟨hst.1, hst.2.1, hms⟩
  · have hst := changeTail_state env w (normalizeToken tok)
    have hms := changeTail_msgs env w (normalizeToken tok)
    rw [hfail] at hms
    simp only [hr, if_false]
    exact ⟨hst.1, hst.2.1, hms⟩

/-- C1 witness: default configuration, token `"M"`, tinygo present, the
compiler failing with `"boom"`. -/
theorem C1_mode_switch_survives_compile_failure_witness :
    validateMode defaultClient (normalizeToken "M") = none ∧
    ((Change ⟨true, some "boom"⟩ defaultClient "M").1.currenSizeMode =
        normalizeToken "M" ∧
     (Change ⟨true, some "boom"⟩ defaultClient "M").1.activeSizeBuilder =
        selectBuilder defaultClient (normalizeToken "M") ∧
     (Change ⟨true, some "boom"⟩ defaultClient "M").2.1 =
        [Msg.compileFailed "boom"]) :=
  ⟨by decide,
   C1_mode_switch_survives_compile_failure ⟨true, some "boom"⟩ defaultClient "M" "boom"
     (by decide) (fun _ => rfl) (by decide)⟩

/-! ## C3 — the TinyGo probe is lazy but re-runs on every enhanced request -/

/-- C3 counterexample: from a fresh default instance with tinygo installed,
a first `Change("M")` probes — and the second `Change("M")` probes again,
contradicting "the probe is performed only the first time an
enhanced-toolchain mode is requested" and "every later enhanced-mode
request reuses the cached boolean result without probing again". -/
theorem C3_probe_rerun_counterexample :
    Event.probe ∈ (Change envOk defaultClient "M").2.2 ∧
    (Change envOk defaultClient "M").1.tinyGoInstalled = true ∧
    Event.probe ∈ (Change envOk (Change envOk defaultClient "M").1 "M").2.2 := by
  decide

/-- C3 amended: the probe is lazy — it runs exactly when the call passed
validation and the normalized token requires the TinyGo toolchain — but it
runs on every such call, not only the first. -/
theorem C3_probe_exactly_on_enhanced_requests (env : Env) (w : WasmClient)
    (tok : String) :
    Event.probe ∈ (Change env w tok).2.2 ↔
      (validateMode w (normalizeToken tok) = none ∧
       requiresTinyGo w (normalizeToken tok) = true) := by
  unfold Change
  cases hv : validateMode w (normalizeToken tok) with
  | some err => simp [hv]
  | none =>
      simp only [hv]
      by_cases hr : requiresTinyGo w (normalizeToken tok) = true
      · simp only [hr, if_true]
        by_cases hp : env.tinyGoPresent = false
        · simp [hp]
        · simp only [Bool.not_eq_false] at hp
          simp [hp]
      · simp only [hr, if_false]
        have := changeTail_no_probe env w (normalizeToken tok)
        simp only [Bool.not_eq_true] at hr
        simp [this, hr]

/-- C3 amended witness: the iff instantiated at the default client and the
enhanced token `"M"`. -/
theorem C3_probe_exactly_on_enhanced_requests_witness :
    (Event.probe ∈ (Change envOk defaultClient "M").2.2 ↔
      (validateMode defaultClient (normalizeToken "M") = none ∧
       requiresTinyGo defaultClient (normalizeToken "M") = true)) ∧
    Event.probe ∈ (Change envOk defaultClient "M").2.2 :=
  ⟨C3_probe_exactly_on_enhanced_requests envOk defaultClient "M",
   (C3_probe_exactly_on_enhanced_requests envOk defaultClient "M").mpr
     ⟨by decide, by decide⟩⟩

/-! ## C2 — storage strategy at construction -/

/-- C2 counterexample: even with the compiled output file already present
on disk at construction time, a fresh instance starts with the In-Memory
storage (`Name() = "In-Memory"`), not the OnDisk/External one the claim
requires (`Name() = "External"`). -/
theorem C2_construction_counterexample :
    (NewEv none true).1.storage = some StorageKind.memory ∧
    storageName StorageKind.memory = "In-Memory" ∧
    ("In-Memory" : String) ≠ "External" := by
  constructor
  · rfl
  · exact ⟨rfl, by decide⟩

/-- C2 amended: the current constructor never consults the filesystem for
strategy selection — every fresh instance starts with the In-Memory
storage regardless of whether the output file exists on disk; the OnDisk
storage is only entered later through an explicit `SetBuildOnDisk` call. -/
theorem C2_construction_always_in_memory (db : Option Store)
    (outputFileExistsOnDisk : Bool) :
    (NewEv db outputFileExistsOnDisk).1.storage = some StorageKind.memory := by
  rfl

/-! ## C4 — the persisted mode is re-read on every `Value()` call -/

/-- C4 counterexample: on an instance constructed over a store holding
mode `"S"`, a plain `Value()` read performs a `Database.Get` — the
persistence store is consulted again after construction with no explicit
re-read requested, contradicting the claim. -/
theorem C4_value_rereads_store_counterexample :
    (NewEv (some [(StoreKeySizeMode, "S")]) false).1.currenSizeMode = "S" ∧
    Event.dbGet StoreKeySizeMode ∈
      (ValueEv (NewEv (some [(StoreKeySizeMode, "S")]) false).1).2.2 := by
  decide

/-- C4 amended: the persisted-mode record is read exactly once during
construction when a store is configured, and it is additionally re-read by
every `Value()` call (the read happens exactly when a store is
configured). -/
theorem C4_store_read_at_construction_and_every_value (db : Option Store)
    (b : Bool) (w : WasmClient) :
    ((NewEv db b).2.count (Event.dbGet StoreKeySizeMode) =
        if db.isSome then 1 else 0) ∧
    (Event.dbGet StoreKeySizeMode ∈ (ValueEv w).2.2 ↔ w.database.isSome = true) := by
  constructor
  · unfold NewEv loadModeEv updateCurrentBuilderEv
    cases db with
    | none => rfl
    | some store =>
        simp only [Option.isSome_some, if_true]
        split <;> simp [List.count_cons, Event.dbGet.injEq]
  · unfold ValueEv loadModeEv updateCurrentBuilderEv
    cases h : w.database with
    | none => simp
    | some store => simp only [Option.isSome_some]; split <;> simp

/-- C4 amended witness: instantiated at a concrete store holding `"M"`. -/
theorem C4_store_read_at_construction_and_every_value_witness :
    ((NewEv (some [(StoreKeySizeMode, "M")]) false).2.count
        (Event.dbGet StoreKeySizeMode) = 1) ∧
    Event.dbGet StoreKeySizeMode ∈
      (ValueEv (NewEv (some [(StoreKeySizeMode, "M")]) false).1).2.2 := by
  have h := C4_store_read_at_construction_and_every_value
    (some [(StoreKeySizeMode, "M")]) false
    (NewEv (some [(StoreKeySizeMode, "M")]) false).1
  exact ⟨h.1, h.2.mpr (by decide)⟩

/-! ## C10 — builder fallback invariant and the case-mismatch quirk -/

/-- C10: after `updateCurrentBuilder(mode)` the active builder is always
one of the three configured builders; for a token not byte-equal to any
configured shortcut the large builder is silently installed while the
token itself is recorded as the current mode; consequently, with a
non-uppercase configured shortcut (`"m"` for medium), `Change("m")`
records the validated uppercased token `"M"` as the current mode while the
active builder is the large one, not the medium one. -/
theorem C10_update_builder_invariant_and_quirk :
    (∀ (w : WasmClient) (mode : String),
      (updateCurrentBuilderEv w mode).1.activeSizeBuilder = BuilderId.large ∨
      (updateCurrentBuilderEv w mode).1.activeSizeBuilder = BuilderId.medium ∨
      (updateCurrentBuilderEv w mode).1.activeSizeBuilder = BuilderId.small) ∧
    (∀ (w : WasmClient) (mode : String),
      mode ≠ w.buildLargeSizeShortcut →
      mode ≠ w.buildMediumSizeShortcut →
      mode ≠ w.buildSmallSizeShortcut →
      (updateCurrentBuilderEv w mode).1.activeSizeBuilder = BuilderId.large ∧
      (updateCurrentBuilderEv w mode).1.currenSizeMode = mode) ∧
    ((Change envOk { defaultClient with buildMediumSizeShortcut := "m" } "m").1.currenSizeMode = "M" ∧
     (Change envOk { defaultClient with buildMediumSizeShortcut := "m" } "m").1.activeSizeBuilder = BuilderId.large) := by
  refine ⟨?_, ?_, by decide⟩
  · intro w mode
    unfold updateCurrentBuilderEv selectBuilder
    split
    · exact Or.inl rfl
    · split
      · exact Or.inr (Or.inl rfl)
      · split
        · exact Or.inr (Or.inr rfl)
        · exact Or.inl rfl
  · intro w mode h1 h2 h3
    unfold updateCurrentBuilderEv selectBuilder
    simp [h1, h2, h3]

/-- C10 witness: the fallback clause applied to the default configuration
and the unmatched (already-validated, uppercased) token `"M"` under a
lowercase-configured medium shortcut. -/
theorem C10_update_builder_invariant_and_quirk_witness :
    (("M" : String) ≠ "L" ∧ ("M" : String) ≠ "m" ∧ ("M" : String) ≠ "S") ∧
    ((updateCurrentBuilderEv { defaultClient with buildMediumSizeShortcut := "m" } "M").1.activeSizeBuilder = BuilderId.large ∧
     (updateCurrentBuilderEv { defaultClient with buildMediumSizeShortcut := "m" } "M").1.currenSizeMode = "M") :=
  ⟨⟨by decide, by decide, by decide⟩,
   C10_update_builder_invariant_and_quirk.2.1
     { defaultClient with buildMediumSizeShortcut := "m" } "M"
     (by decide) (by decide) (by decide)⟩

/-! ## C8 — mode round trip -/

theorem storeGet_storeSet (db : Store) (k v : String) :
    storeGet (storeSet db k v) k = v := by
  simp [storeGet, storeSet, List.find?]

theorem Value_of_synced (w : WasmClient) (t : String)
    (h1 : w.currenSizeMode = t) (hne : t ≠ "")
    (hdb : ∀ db, w.database = some db → storeGet db StoreKeySizeMode = t) :
    (ValueEv w).1 = t := by
  unfold ValueEv loadModeEv
  cases hd : w.database with
  | none => simp [h1, hne]
  | some db =>
      have hv := hdb db hd
      simp [hv, h1, hne]

theorem valueAfterTail (env : Env) (w : WasmClient) (t : String) (hne : t ≠ "") :
    (ValueEv (changeTail env w t).1).1 = t := by
  apply Value_of_synced _ t (changeTail_state env w t).1 hne
  intro db' hd'
  cases hd : w.database with
  | none =>
      rw [changeTail_database_none env w t hd] at hd'
      exact absurd hd' (by simp)
  | some db =>
      rw [changeTail_database_some env w t db hd] at hd'
      injection hd' with h
      rw [← h]
      exact storeGet_storeSet db _ t

/-- C8: with the configured shortcuts invariant under normalization (as
the defaults `"L"`/`"M"`/`"S"` are, and as the source expects — "configured
shortcuts which are expected to be single uppercase letters"), for each of
the three configured tokens, `Change` applied to any input that normalizes
to that token — in particular its lowercase form — followed by reading the
current mode through `Value()` returns exactly that token. -/
theorem C8_mode_round_trip (env : Env) (w : WasmClient) (t inp : String)
    (hL : normalizeToken w.buildLargeSizeShortcut = w.buildLargeSizeShortcut)
    (hM : normalizeToken w.buildMediumSizeShortcut = w.buildMediumSizeShortcut)
    (hS : normalizeToken w.buildSmallSizeShortcut = w.buildSmallSizeShortcut)
    (hmem : t = w.buildLargeSizeShortcut ∨ t = w.buildMediumSizeShortcut ∨
            t = w.buildSmallSizeShortcut)
    (hne : t ≠ "")
    (hinp : normalizeToken inp = t)
    (htg : requiresTinyGo w t = true → env.tinyGoPresent = true) :
    (ValueEv (Change env w inp).1).1 = t := by
  have hnt : normalizeToken t = t := by
    rcases hmem with h | h | h <;> (subst h; assumption)
  have hval : validateMode w t = none := by
    unfold validateMode validModes
    rw [hnt]
    simp only [hL, hM, hS]
    rcases hmem with h | h | h <;> simp [h]
  simp only [Change, hinp, hval]
  by_cases hr : requiresTinyGo w t = true
  · simp only [hr, htg hr, if_true]
    exact valueAfterTail env { w with tinyGoInstalled := true } t hne
  · simp only [hr, if_false]
    exact valueAfterTail env w t hne

/-- C8 witness: default configuration, token `"M"` requested through its
lowercase form `"m"`, tinygo present. -/
theorem C8_mode_round_trip_witness :
    (normalizeToken "m" = "M" ∧ ("M" : String) ≠ "" ∧
     normalizeToken defaultClient.buildMediumSizeShortcut =
       defaultClient.buildMediumSizeShortcut) ∧
    (ValueEv (Change envOk defaultClient "m").1).1 = "M" :=
  ⟨⟨by decide, by decide, by decide⟩,
   C8_mode_round_trip envOk defaultClient "M" "m"
     (by decide) (by decide) (by decide) (Or.inr (Or.inl (by decide)))
     (by decide) (by decide) (fun _ => rfl)⟩

/-! ## C5 — signature-count detection from shim content -/

theorem restoreModeFromStore_flags (w : TinyWasm) :
    (restoreModeFromStore w).tinyGoCompiler = w.tinyGoCompiler ∧
    (restoreModeFromStore w).wasmProject = w.wasmProject := by
  unfold restoreModeFromStore
  cases w.store with
  | none => exact ⟨rfl, rfl⟩
  | some db => constructor <;> (simp only []; split <;> rfl)

/-- C5 counterexample: a shim content holding exactly one standard-Go
signature and exactly one TinyGo signature (an exact non-zero tie).  The
claim requires detection to be inconclusive and fall through, but the
source's third branch selects the TinyGo toolchain and marks the project
recognized. -/
theorem C5_tie_counterexample :
    countSigs "runtime.wasmExit runtime.sleepTicks" wasm_execGoSignatures = 1 ∧
    countSigs "runtime.wasmExit runtime.sleepTicks" wasm_execTinyGoSignatures = 1 ∧
    (analyzeWasmExecJsContent
      { currentMode := "L", buildLargeSizeShortcut := "L",
        buildMediumSizeShortcut := "M", buildSmallSizeShortcut := "S",
        wasmProject := false, tinyGoCompiler := false,
        activeBuilder := some "client.wasm", store := none,
        mode_large_go_wasm_exec_cache := "",
        mode_medium_tinygo_wasm_exec_cache := "",
        mode_small_tinygo_wasm_exec_cache := "" }
      "runtime.wasmExit runtime.sleepTicks").1 = true ∧
    (analyzeWasmExecJsContent
      { currentMode := "L", buildLargeSizeShortcut := "L",
        buildMediumSizeShortcut := "M", buildSmallSizeShortcut := "S",
        wasmProject := false, tinyGoCompiler := false,
        activeBuilder := some "client.wasm", store := none,
        mode_large_go_wasm_exec_cache := "",
        mode_medium_tinygo_wasm_exec_cache := "",
        mode_small_tinygo_wasm_exec_cache := "" }
      "runtime.wasmExit runtime.sleepTicks").2.tinyGoCompiler = true := by
  decide

/-- C5 amended: the strictly-more-matches side wins (which subsumes the
only-one-side-has-matches case); when both counts are zero, detection
fails and the compiler/project flags are left unchanged; but on an exact
non-zero tie the TinyGo toolchain is selected (the tie is broken in favor
of TinyGo), rather than detection falling through. -/
theorem C5_signature_count_selection (w : TinyWasm) (content : String) :
    (countSigs content wasm_execTinyGoSignatures >
        countSigs content wasm_execGoSignatures →
      (analyzeWasmExecJsContent w content).1 = true ∧
      (analyzeWasmExecJsContent w content).2.tinyGoCompiler = true ∧
      (analyzeWasmExecJsContent w content).2.wasmProject = true) ∧
    (countSigs content wasm_execGoSignatures >
        countSigs content wasm_execTinyGoSignatures →
      (analyzeWasmExecJsContent w content).1 = true ∧
      (analyzeWasmExecJsContent w content).2.tinyGoCompiler = false ∧
      (analyzeWasmExecJsContent w content).2.wasmProject = true) ∧
    (countSigs content wasm_execGoSignatures = 0 ∧
        countSigs content wasm_execTinyGoSignatures = 0 →
      (analyzeWasmExecJsContent w content).1 = false ∧
      (analyzeWasmExecJsContent w content).2.tinyGoCompiler = w.tinyGoCompiler ∧
      (analyzeWasmExecJsContent w content).2.wasmProject = w.wasmProject) ∧
    (countSigs content wasm_execTinyGoSignatures =
        countSigs content wasm_execGoSignatures ∧
        0 < countSigs content wasm_execTinyGoSignatures →
      (analyzeWasmExecJsContent w content).1 = true ∧
      (analyzeWasmExecJsContent w content).2.tinyGoCompiler = true ∧
      (analyzeWasmExecJsContent w content).2.wasmProject = true) := by
  have hflags := restoreModeFromStore_flags w
  unfold analyzeWasmExecJsContent
  refine ⟨fun h => ?_, fun h => ?_, fun h => ?_, fun h => ?_⟩
  · simp [show countSigs content wasm_execTinyGoSignatures >
        countSigs content wasm_execGoSignatures ∧
        countSigs content wasm_execTinyGoSignatures > 0 by omega]
  · simp [show ¬(countSigs content wasm_execTinyGoSignatures >
        countSigs content wasm_execGoSignatures ∧
        countSigs content wasm_execTinyGoSignatures > 0) by omega,
      show countSigs content wasm_execGoSignatures >
        countSigs content wasm_execTinyGoSignatures ∧
        countSigs content wasm_execGoSignatures > 0 by omega]
  · simp [h.1, h.2, hflags.1, hflags.2]
  · simp [show ¬(countSigs content wasm_execTinyGoSignatures >
        countSigs content wasm_execGoSignatures ∧
        countSigs content wasm_execTinyGoSignatures > 0) by omega,
      show ¬(countSigs content wasm_execGoSignatures >
        countSigs content wasm_execTinyGoSignatures ∧
        countSigs content wasm_execGoSignatures > 0) by omega,
      show countSigs content wasm_execTinyGoSignatures > 0 ∨
        countSigs content wasm_execGoSignatures > 0 by omega,
      show countSigs content wasm_execTinyGoSignatures > 0 by omega]

/-- C5 amended witness: the tie clause instantiated at the concrete
tie content. -/
theorem C5_signature_count_selection_witness :
    (countSigs "runtime.wasmExit runtime.sleepTicks" wasm_execTinyGoSignatures =
       countSigs "runtime.wasmExit runtime.sleepTicks" wasm_execGoSignatures ∧
     0 < countSigs "runtime.wasmExit runtime.sleepTicks" wasm_execTinyGoSignatures) ∧
    ((analyzeWasmExecJsContent
        { currentMode := "", buildLargeSizeShortcut := "L",
          buildMediumSizeShortcut := "M", buildSmallSizeShortcut := "S",
          wasmProject := false, tinyGoCompiler := false,
          activeBuilder := none, store := none,
          mode_large_go_wasm_exec_cache := "",
          mode_medium_tinygo_wasm_exec_cache := "",
          mode_small_tinygo_wasm_exec_cache := "" }
        "runtime.wasmExit runtime.sleepTicks").1 = true ∧
     (analyzeWasmExecJsContent
        { currentMode := "", buildLargeSizeShortcut := "L",
          buildMediumSizeShortcut := "M", buildSmallSizeShortcut := "S",
          wasmProject := false, tinyGoCompiler := false,
          activeBuilder := none, store := none,
          mode_large_go_wasm_exec_cache := "",
          mode_medium_tinygo_wasm_exec_cache := "",
          mode_small_tinygo_wasm_exec_cache := "" }
        "runtime.wasmExit runtime.sleepTicks").2.tinyGoCompiler = true ∧
     (analyzeWasmExecJsContent
        { currentMode := "", buildLargeSizeShortcut := "L",
          buildMediumSizeShortcut := "M", buildSmallSizeShortcut := "S",
          wasmProject := false, tinyGoCompiler := false,
          activeBuilder := none, store := none,
          mode_large_go_wasm_exec_cache := "",
          mode_medium_tinygo_wasm_exec_cache := "",
          mode_small_tinygo_wasm_exec_cache := "" }
        "runtime.wasmExit runtime.sleepTicks").2.wasmProject = true) :=
  ⟨⟨by decide, by decide⟩,
   (C5_signature_count_selection _ "runtime.wasmExit runtime.sleepTicks").2.2.2
     ⟨by decide, by decide⟩⟩

/-! ## C9 — generator determinism and output normalization

Helper lemmas about the character-list implementations of the Go string
operations used by `normalizeJs`. -/

/-- A line carries no trailing whitespace: its last character, if any, is
neither a space nor a tab. -/
def noTrailWs (l : List Char) : Bool :=
  match l.getLast? with
  | some c => !(c = ' ' || c = '\t')
  | none => true

theorem mem_replaceCR_ne_cr (l : List Char) (c : Char) (hc : c ∈ replaceCR l) :
    c ≠ '\r' := by
  unfold replaceCR at hc
  rcases List.mem_map.mp hc with ⟨a, _, rfl⟩
  by_cases ha : a = '\r' <;> simp [ha]

theorem splitOnNl_cons_nl (cs : List Char) :
    splitOnNl ('\n' :: cs) = [] :: splitOnNl cs := rfl

theorem splitOnNl_cons_ne (a : Char) (xs : List Char) (ha : ¬(a = '\n')) :
    splitOnNl (a :: xs) =
      match splitOnNl xs with
      | [] => [[a]]
      | l :: ls => (a :: l) :: ls := by
  rw [splitOnNl]
  simp [ha]

theorem splitOnNl_ne_nil (cs : List Char) : splitOnNl cs ≠ [] := by
  cases cs with
  | nil => simp [splitOnNl]
  | cons c rest =>
      unfold splitOnNl
      split
      · simp
      · split <;> simp

theorem mem_splitOnNl (cs : List Char) (l : List Char) (hl : l ∈ splitOnNl cs)
    (c : Char) (hc : c ∈ l) : c ∈ cs ∧ c ≠ '\n' := by
  induction cs generalizing l with
  | nil =>
      simp [splitOnNl] at hl
      subst hl
      simp at hc
  | cons a rest ih =>
      unfold splitOnNl at hl
      by_cases ha : a = '\n'
      · simp only [ha, if_true] at hl
        rcases List.mem_cons.mp hl with h | h
        · subst h; simp at hc
        · have := ih l h hc
          exact ⟨List.mem_cons_of_mem _ this.1, this.2⟩
      · simp only [ha, if_false] at hl
        rcases hsp : splitOnNl rest with _ | ⟨p, ps⟩
        · exact absurd hsp (splitOnNl_ne_nil rest)
        · rw [hsp] at hl
          rcases List.mem_cons.mp hl with h | h
          · subst h
            rcases List.mem_cons.mp hc with h' | h'
            · subst h'; exact ⟨List.mem_cons_self _ _, ha⟩
            · have := ih p (by rw [hsp]; exact List.mem_cons_self _ _) h'
              exact ⟨List.mem_cons_of_mem _ this.1, this.2⟩
          · have := ih l (by rw [hsp]; exact List.mem_cons_of_mem _ h) hc
            exact ⟨List.mem_cons_of_mem _ this.1, this.2⟩

theorem splitOnNl_nlFree (cs : List Char) (h : '\n' ∉ cs) :
    splitOnNl cs = [cs] := by
  induction cs with
  | nil => rfl
  | cons a rest ih =>
      have ha : ¬(a = '\n') := fun e => h (e ▸ List.mem_cons_self _ _)
      have hr : '\n' ∉ rest := fun e => h (List.mem_cons_of_mem _ e)
      rw [splitOnNl_cons_ne a _ ha, ih hr]

theorem splitOnNl_append_nl (l cs : List Char) (h : '\n' ∉ l) :
    splitOnNl (l ++ '\n' :: cs) = l :: splitOnNl cs := by
  induction l with
  | nil => rfl
  | cons a rest ih =>
      have ha : ¬(a = '\n') := fun e => h (e ▸ List.mem_cons_self _ _)
      have hr : '\n' ∉ rest := fun e => h (List.mem_cons_of_mem _ e)
      rw [List.cons_append, splitOnNl_cons_ne a _ ha, ih hr]

theorem joinNl_cons (l : List Char) (ls : List (List Char)) (h : ls ≠ []) :
    joinNl (l :: ls) = l ++ '\n' :: joinNl ls := by
  cases ls with
  | nil => exact absurd rfl h
  | cons p ps => rfl

theorem mem_joinNl (ls : List (List Char)) (c : Char) (hc : c ∈ joinNl ls) :
    c = '\n' ∨ ∃ l ∈ ls, c ∈ l := by
  induction ls with
  | nil => simp [joinNl] at hc
  | cons l ps ih =>
      cases ps with
      | nil =>
          right
          exact ⟨l, List.mem_cons_self _ _, hc⟩
      | cons q qs =>
          rw [joinNl_cons l (q :: qs) (by simp)] at hc
          rcases List.mem_append.mp hc with h | h
          · exact Or.inr ⟨l, List.mem_cons_self _ _, h⟩
          · rcases List.mem_cons.mp h with h' | h'
            · exact Or.inl h'
            · rcases ih h' with h'' | ⟨m, hm, hcm⟩
              · exact Or.inl h''
              · exact Or.inr ⟨m, List.mem_cons_of_mem _ hm, hcm⟩

theorem splitOnNl_joinNl (ls : List (List Char)) (hnl : ∀ l ∈ ls, '\n' ∉ l)
    (hne : ls ≠ []) : splitOnNl (joinNl ls) = ls := by
  induction ls with
  | nil => exact absurd rfl hne
  | cons l ps ih =>
      cases ps with
      | nil => exact splitOnNl_nlFree l (hnl l (List.mem_cons_self _ _))
      | cons q qs =>
          rw [joinNl_cons l (q :: qs) (by simp)]
          rw [splitOnNl_append_nl l _ (hnl l (List.mem_cons_self _ _))]
          rw [ih (fun m hm => hnl m (List.mem_cons_of_mem _ hm)) (by simp)]

theorem mem_trimRightWs (l : List Char) (c : Char) (hc : c ∈ trimRightWs l) :
    c ∈ l := by
  unfold trimRightWs at hc
  rw [List.mem_reverse] at hc
  have := (List.dropWhile_sublist _).subset hc
  exact List.mem_reverse.mp this

theorem head?_dropWhile_ws (p : Char → Bool) (x : List Char) (c : Char)
    (h : (x.dropWhile p).head? = some c) : p c = false := by
  induction x with
  | nil => simp [List.dropWhile] at h
  | cons a rest ih =>
      rw [List.dropWhile_cons] at h
      by_cases ha : p a = true
      · rw [if_pos ha] at h
        exact ih h
      · rw [if_neg ha] at h
        simp only [List.head?_cons, Option.some.injEq] at h
        subst h
        exact (Bool.not_eq_true _) ▸ ha

theorem noTrailWs_trimRightWs (l : List Char) :
    noTrailWs (trimRightWs l) = true := by
  unfold noTrailWs trimRightWs
  rw [List.getLast?_reverse]
  cases hh : (l.reverse.dropWhile (fun c => c = ' ' || c = '\t')).head? with
  | none => rfl
  | some c =>
      have := head?_dropWhile_ws _ _ _ hh
      simp only [this]
      rfl

/-- The two normalization guarantees of `normalizeJs`: no carriage return
survives, and no line of the output ends in a space or a tab. -/
theorem normalizeJs_normalized (s : String) :
    '\r' ∉ (normalizeJs s).data ∧
    ∀ l ∈ splitOnNl (normalizeJs s).data, noTrailWs l = true := by
  have hbase : ∀ c ∈ replaceCR (replaceCRLF s.data), c ≠ '\r' :=
    fun c hc => mem_replaceCR_ne_cr _ c hc
  have hdata : (normalizeJs s).data =
      joinNl ((splitOnNl (replaceCR (replaceCRLF s.data))).map trimRightWs) := rfl
  constructor
  · intro hmem
    rw [hdata] at hmem
    rcases mem_joinNl _ _ hmem with h | ⟨l, hl, hcl⟩
    · exact absurd h (by decide)
    · rcases List.mem_map.mp hl with ⟨p, hp, rfl⟩
      have hin := mem_trimRightWs p _ hcl
      have := mem_splitOnNl _ p hp _ hin
      exact hbase '\r' this.1 rfl
  · intro l hl
    rw [hdata] at hl
    have hnlfree : ∀ m ∈ (splitOnNl (replaceCR (replaceCRLF s.data))).map trimRightWs,
        '\n' ∉ m := by
      intro m hm hnm
      rcases List.mem_map.mp hm with ⟨p, hp, rfl⟩
      have hin := mem_trimRightWs p _ hnm
      exact (mem_splitOnNl _ p hp _ hin).2 rfl
    have hmapne : (splitOnNl (replaceCR (replaceCRLF s.data))).map trimRightWs ≠ [] := by
      intro h
      exact splitOnNl_ne_nil _ (List.map_eq_nil_iff.mp h)
    rw [splitOnNl_joinNl _ hnlfree hmapne] at hl
    rcases List.mem_map.mp hl with ⟨p, _, rfl⟩
    exact noTrailWs_trimRightWs p

theorem jsStoreCache_currentMode (h : TinyWasm) (mode v : String) :
    (jsStoreCache h mode v).currentMode = h.currentMode := by
  unfold jsStoreCache; (repeat' split) <;> rfl

theorem jsStoreCache_bL (h : TinyWasm) (mode v : String) :
    (jsStoreCache h mode v).buildLargeSizeShortcut = h.buildLargeSizeShortcut := by
  unfold jsStoreCache; (repeat' split) <;> rfl

theorem jsStoreCache_bM (h : TinyWasm) (mode v : String) :
    (jsStoreCache h mode v).buildMediumSizeShortcut = h.buildMediumSizeShortcut := by
  unfold jsStoreCache; (repeat' split) <;> rfl

theorem jsStoreCache_bS (h : TinyWasm) (mode v : String) :
    (jsStoreCache h mode v).buildSmallSizeShortcut = h.buildSmallSizeShortcut := by
  unfold jsStoreCache; (repeat' split) <;> rfl

theorem jsStoreCache_wasmProject (h : TinyWasm) (mode v : String) :
    (jsStoreCache h mode v).wasmProject = h.wasmProject := by
  unfold jsStoreCache; (repeat' split) <;> rfl

theorem jsStoreCache_activeBuilder (h : TinyWasm) (mode v : String) :
    (jsStoreCache h mode v).activeBuilder = h.activeBuilder := by
  unfold jsStoreCache; (repeat' split) <;> rfl

theorem js4i_preserves (g t : String) (h : TinyWasm) (cz : List String) :
    (JavascriptForInitializing g t h cz).2.currentMode = h.currentMode ∧
    (JavascriptForInitializing g t h cz).2.buildLargeSizeShortcut =
      h.buildLargeSizeShortcut ∧
    (JavascriptForInitializing g t h cz).2.buildMediumSizeShortcut =
      h.buildMediumSizeShortcut ∧
    (JavascriptForInitializing g t h cz).2.buildSmallSizeShortcut =
      h.buildSmallSizeShortcut ∧
    (JavascriptForInitializing g t h cz).2.wasmProject = h.wasmProject ∧
    (JavascriptForInitializing g t h cz).2.activeBuilder = h.activeBuilder := by
  by_cases hw : h.wasmProject = false
  · simp [JavascriptForInitializing, hw]
  · cases hb : h.activeBuilder with
    | none => simp [JavascriptForInitializing, hw, hb]
    | some nm =>
        simp [JavascriptForInitializing, hw, hb, jsStoreCache_currentMode,
          jsStoreCache_bL, jsStoreCache_bM, jsStoreCache_bS,
          jsStoreCache_wasmProject, jsStoreCache_activeBuilder]

theorem js4i_fst_congr (g t : String) (cz : List String) (h h2 : TinyWasm)
    (e1 : h2.currentMode = h.currentMode)
    (e2 : h2.buildLargeSizeShortcut = h.buildLargeSizeShortcut)
    (e3 : h2.buildMediumSizeShortcut = h.buildMediumSizeShortcut)
    (e4 : h2.buildSmallSizeShortcut = h.buildSmallSizeShortcut)
    (e5 : h2.wasmProject = h.wasmProject)
    (e6 : h2.activeBuilder = h.activeBuilder) :
    (JavascriptForInitializing g t h2 cz).1 =
      (JavascriptForInitializing g t h cz).1 := by
  by_cases hw : h.wasmProject = false
  · have hw2 : h2.wasmProject = false := by rw [e5]; exact hw
    simp [JavascriptForInitializing, hw, hw2]
  · have hw2 : ¬(h2.wasmProject = false) := by rw [e5]; exact hw
    cases hb : h.activeBuilder with
    | none =>
        have hb2 : h2.activeBuilder = none := by rw [e6, hb]
        simp [JavascriptForInitializing, hw, hw2, hb, hb2]
    | some nm =>
        have hb2 : h2.activeBuilder = some nm := by rw [e6, hb]
        simp [JavascriptForInitializing, tvValue, hw, hw2, hb, hb2, e1, e2, e3, e4]

theorem js4i_ok_form (g t : String) (h : TinyWasm) (cz : List String)
    (out : String)
    (hok : (JavascriptForInitializing g t h cz).1 = Except.ok out) :
    out = "" ∨ ∃ s, out = normalizeJs s := by
  unfold JavascriptForInitializing at hok
  by_cases hw : h.wasmProject = false
  · simp [hw] at hok
    exact Or.inl hok.symm
  · cases hb : h.activeBuilder with
    | none => simp [hw, hb] at hok
    | some nm =>
        simp [hw, hb] at hok
        exact Or.inr ⟨_, hok.symm⟩

/-- C9: for a fixed state and fixed customizations, a second call to the
shim generator after clearing the per-mode caches returns the byte-identical
string; moreover every successfully returned string is normalized — it
holds no carriage return and no line of it ends in a space or a tab. -/
theorem C9_shim_generation_deterministic_and_normalized
    (goBlob tinyBlob : String) (h : TinyWasm) (cz : List String) :
    (JavascriptForInitializing goBlob tinyBlob h cz).1 =
      (JavascriptForInitializing goBlob tinyBlob
        (ClearJavaScriptCache
          (JavascriptForInitializing goBlob tinyBlob h cz).2) cz).1 ∧
    ∀ out : String,
      (JavascriptForInitializing goBlob tinyBlob h cz).1 = Except.ok out →
      '\r' ∉ out.data ∧ ∀ l ∈ splitOnNl out.data, noTrailWs l = true := by
  constructor
  · have hp := js4i_preserves goBlob tinyBlob h cz
    exact (js4i_fst_congr goBlob tinyBlob cz h
      (ClearJavaScriptCache (JavascriptForInitializing goBlob tinyBlob h cz).2)
      hp.1 hp.2.1 hp.2.2.1 hp.2.2.2.1 hp.2.2.2.2.1 hp.2.2.2.2.2).symm
  · intro out hok
    rcases js4i_ok_form goBlob tinyBlob h cz out hok with he | ⟨s, hs⟩
    · subst he
      exact ⟨by decide, by decide⟩
    · subst hs
      exact normalizeJs_normalized s

/-- C9 witness: a recognized project with builder output `"client.wasm"`,
blob `"g"`, custom header `"h "` and custom footer `"f "` — the generated
text is `"h gf"`, identical across the cache-cleared second call, and
normalized. -/
theorem C9_shim_generation_deterministic_and_normalized_witness :
    (JavascriptForInitializing "g" "t"
      { currentMode := "L", buildLargeSizeShortcut := "L",
        buildMediumSizeShortcut := "M", buildSmallSizeShortcut := "S",
        wasmProject := true, tinyGoCompiler := false,
        activeBuilder := some "client.wasm", store := none,
        mode_large_go_wasm_exec_cache := "",
        mode_medium_tinygo_wasm_exec_cache := "",
        mode_small_tinygo_wasm_exec_cache := "" } ["h ", "f "]).1 =
      Except.ok "h gf" ∧
    (JavascriptForInitializing "g" "t"
      { currentMode := "L", buildLargeSizeShortcut := "L",
        buildMediumSizeShortcut := "M", buildSmallSizeShortcut := "S",
        wasmProject := true, tinyGoCompiler := false,
        activeBuilder := some "client.wasm", store := none,
        mode_large_go_wasm_exec_cache := "",
        mode_medium_tinygo_wasm_exec_cache := "",
        mode_small_tinygo_wasm_exec_cache := "" } ["h ", "f "]).1 =
      (JavascriptForInitializing "g" "t"
        (ClearJavaScriptCache
          (JavascriptForInitializing "g" "t"
            { currentMode := "L", buildLargeSizeShortcut := "L",
              buildMediumSizeShortcut := "M", buildSmallSizeShortcut := "S",
              wasmProject := true, tinyGoCompiler := false,
              activeBuilder := some "client.wasm", store := none,
              mode_large_go_wasm_exec_cache := "",
              mode_medium_tinygo_wasm_exec_cache := "",
              mode_small_tinygo_wasm_exec_cache := "" } ["h ", "f "]).2)
        ["h ", "f "]).1 ∧
    ('\r' ∉ ("h gf" : String).data ∧
     ∀ l ∈ splitOnNl ("h gf" : String).data, noTrailWs l = true) := by
  have hc := C9_shim_generation_deterministic_and_normalized "g" "t"
    { currentMode := "L", buildLargeSizeShortcut := "L",
      buildMediumSizeShortcut := "M", buildSmallSizeShortcut := "S",
      wasmProject := true, tinyGoCompiler := false,
      activeBuilder := some "client.wasm", store := none,
      mode_large_go_wasm_exec_cache := "",
      mode_medium_tinygo_wasm_exec_cache := "",
      mode_small_tinygo_wasm_exec_cache := "" } ["h ", "f "]
  exact ⟨rfl, hc.1, hc.2 "h gf" rfl⟩

end TinywasmClient
